import Mathlib

/-!
Verification of the riboviz configuration-upgrade transformer
(`riboviz/upgrade_config.py`) and of the path-resolution / skip policy of
the integration and regression test suites
(`riboviz/test/integration/test_integration.py`,
`riboviz/test/regression/test_regression.py`).

A configuration is modelled as a partial map from parameter names to YAML
values (Python `dict` equality is key/value based, so a function
`String → Option Value` is the faithful notion of mapping equality).
Fallible Python code (`KeyError`, `TypeError`, `AssertionError`) is
modelled with `Option`.
-/

set_option maxRecDepth 100000

namespace Riboviz

/-- YAML-style configuration value: scalar (null, boolean, integer,
string) or nested list / mapping, as loaded by `yaml.load`. -/
inductive Value where
  | null
  | bool (b : Bool)
  | int (n : Int)
  | str (s : String)
  | list (elems : List Value)
  | dict (entries : List (String × Value))

/-- A configuration mapping, as a partial map from parameter names to
values.  Equality of such functions coincides with Python `dict`
equality (order-insensitive key/value comparison). -/
def Config : Type := String → Option Value

/-- The empty configuration mapping. -/
def emptyConfig : Config := fun _ => none

/-- Update the mapping at key `k` with value `v` (Python `config[k] = v`). -/
def setK (c : Config) (k : String) (v : Value) : Config :=
  fun q => if q = k then some v else c q

/-- Remove key `k` from the mapping (Python `del config[k]`, on a key
that may or may not be present; deletion of an absent key is the
identity here, which is only ever used guarded by a presence test,
mirroring the source). -/
def delK (c : Config) (k : String) : Config :=
  fun q => if q = k then none else c q

/-- First-match lookup in an association list (used for the static
tables, which Python iterates in insertion order). -/
def lookupL : List (String × Value) → String → Option Value
  | [], _ => none
  | p :: t, k => if k = p.1 then some p.2 else lookupL t k

/-- Characters after the last separator of a character list, building the
tail component of Python `os.path.split` / `os.path.basename`
(`p[p.rfind(sep) + 1:]`). -/
def lastSegAux : List Char → List Char → List Char
  | acc, [] => acc
  | acc, ch :: cs => lastSegAux (if ch = '/' then [] else acc ++ [ch]) cs

/-- Tail component of Python `os.path.split(p)`: everything after the
last path separator of `p` (the whole of `p` if it has no separator). -/
def pySplitTail (s : String) : String := String.mk (lastSegAux [] s.data)

/-- Python `os.path.basename(p)`, which on POSIX is exactly the tail
component of `os.path.split(p)`. -/
def pyBasename (s : String) : String := pySplitTail s

/-- Whether a string starts with the path separator. -/
def startsWithSlash (s : String) : Bool :=
  match s.data with
  | '/' :: _ => true
  | _ => false

/-- Whether a string ends with the path separator. -/
def endsWithSlash (s : String) : Bool :=
  match s.data.getLast? with
  | some '/' => true
  | _ => false

/-- Python `os.path.join(a, b)` on POSIX: `b` if it is absolute,
otherwise `a` and `b` glued with a separator unless `a` is empty or
already ends with one. -/
def pyJoin (a b : String) : String :=
  if startsWithSlash b then b
  else if a = "" ∨ endsWithSlash a then a ++ b
  else a ++ "/" ++ b

/-- Split a character list on the path separator, keeping empty
components, as Python `path.split('/')` does. -/
def splitSep : List Char → List (List Char)
  | [] => [[]]
  | ch :: cs =>
    if ch = '/' then [] :: splitSep cs
    else
      match splitSep cs with
      | [] => [[ch]]
      | h :: t => (ch :: h) :: t

/-- The component `..` as a character list. -/
def dotDot : List Char := ['.', '.']

/-- One step of the component normalization loop of Python
`posixpath.normpath`: drop empty and `.` components, append ordinary
components, and let `..` pop the previous component unless the path so
far is empty-and-relative or itself ends in `..`. -/
def normStep (initialSlashes : Nat) (acc : List (List Char)) (comp : List Char) :
    List (List Char) :=
  if comp = [] ∨ comp = ['.'] then acc
  else if comp ≠ dotDot ∨ (initialSlashes = 0 ∧ acc = []) ∨
      (acc ≠ [] ∧ acc.getLast? = some dotDot) then
    acc ++ [comp]
  else if acc ≠ [] then acc.dropLast
  else acc

/-- Python `posixpath.normpath`: empty path becomes `.`, one or two (but
not three or more) leading separators are preserved, components are
normalized by `normStep`, and an empty result becomes `.`. -/
def pyNormpath (p : String) : String :=
  if p.data = [] then "."
  else
    let l := p.data
    let initialSlashes : Nat :=
      if l.take 2 = ['/', '/'] ∧ l.take 3 ≠ ['/', '/', '/'] then 2
      else if l.take 1 = ['/'] then 1
      else 0
    let comps := (splitSep l).foldl (normStep initialSlashes) []
    let joined := List.replicate initialSlashes '/' ++ List.intercalate ['/'] comps
    if joined = [] then "." else String.mk joined

/-- Renamed configuration parameters (`upgrade_config.RENAMES`), in the
source's insertion order.  The current parameter names substituted for
the `params.*` constants are the ones documented in the module
docstring of `upgrade_config.py`. -/
def RENAMES : List (String × String) := [
  ("Buffer", "buffer"),
  ("MaxReadLen", "max_read_length"),
  ("MinReadLen", "min_read_length"),
  ("PrimaryID", "primary_id"),
  ("SecondID", "secondary_id"),
  ("StopInCDS", "stop_in_feature"),
  ("codon_pos", "codon_positions_file"),
  ("nprocesses", "num_processes"),
  ("orf_fasta", "orf_fasta_file"),
  ("orf_index", "orf_index_prefix"),
  ("rRNA_fasta", "rrna_fasta_file"),
  ("rRNA_index", "rrna_index_prefix"),
  ("ribovizGFF", "is_riboviz_gff"),
  ("stop_in_cds", "stop_in_feature"),
  ("t_rna", "t_rna_file"),
  ("do_pos_sp_nt_freq", "output_metagene_normalized_profile")]

/-- Map from configuration parameters to default values
(`upgrade_config.UPDATES`), in the source's insertion order, with the
`params.*` key names taken from the module docstring. -/
def UPDATES : List (String × Value) := [
  ("asite_disp_length_file", Value.null),
  ("output_metagene_normalized_profile", Value.bool true),
  ("codon_positions_file", Value.null),
  ("count_reads", Value.bool true),
  ("count_threshold", Value.int 64),
  ("dedup_stats", Value.bool false),
  ("dedup_umis", Value.bool false),
  ("extract_umis", Value.bool false),
  ("feature", Value.str "CDS"),
  ("features_file", Value.null),
  ("fq_files", Value.null),
  ("group_umis", Value.bool false),
  ("multiplex_fq_files", Value.null),
  ("output_pdfs", Value.bool true),
  ("publish_index_tmp", Value.bool false),
  ("run_static_html", Value.bool true),
  ("sample_sheet", Value.null),
  ("samsort_memory", Value.null),
  ("stop_in_feature", Value.bool false),
  ("trim_5p_mismatches", Value.bool true),
  ("t_rna_file", Value.null),
  ("umi_regexp", Value.null)]

/-- Modelled from the spec: `params.DEFAULT_JOB_CONFIG`, the job
configuration defaults, whose module `riboviz/params.py` is not part of
this excerpt.  Its entries are the job and nextflow defaults listed in
the `upgrade_config.py` module docstring, plus the command-line-only
`nextflow_resume` parameter that `upgrade_config` removes from its copy
before applying it. -/
def DEFAULT_JOB_CONFIG : List (String × Value) := [
  ("job_email", Value.null),
  ("job_email_events", Value.str "beas"),
  ("job_memory", Value.str "8G"),
  ("job_name", Value.str "riboviz"),
  ("job_num_cpus", Value.int 4),
  ("job_parallel_env", Value.str "mpi"),
  ("job_runtime", Value.str "48:00:00"),
  ("nextflow_dag_file", Value.str "nextflow-dag.html"),
  ("nextflow_report_file", Value.str "nextflow-report.html"),
  ("nextflow_resume", Value.bool false),
  ("nextflow_timeline_file", Value.str "nextflow-timeline.html"),
  ("nextflow_trace_file", Value.str "nextflow-trace.tsv"),
  ("nextflow_work_dir", Value.str "work"),
  ("validate_only", Value.bool false)]

/-- Key of the `nextflow_resume` parameter (`params.NEXTFLOW_RESUME`). -/
def NEXTFLOW_RESUME : String := "nextflow_resume"

/-- The job-configuration defaults applied by `upgrade_config`: a copy
of `params.DEFAULT_JOB_CONFIG` with `params.NEXTFLOW_RESUME` removed. -/
def jobConfigUpgrade : List (String × Value) :=
  DEFAULT_JOB_CONFIG.filter (fun p => decide (p.1 ≠ NEXTFLOW_RESUME))

/-- Unused configuration parameters for removal
(`upgrade_config.UNUSED`). -/
def UNUSED : List String :=
  ["aligner", "isTestRun", "is_test_run", "cmd_file", "dir_logs"]

/-- Key of the rRNA index prefix parameter (`params.RRNA_INDEX_PREFIX`). -/
def RRNA_INDEX_KEY : String := "rrna_index_prefix"

/-- Key of the ORF index prefix parameter (`params.ORF_INDEX_PREFIX`). -/
def ORF_INDEX_KEY : String := "orf_index_prefix"

/-- One step of the rename loop of `upgrade_config`: if the old key is
present, delete it and store its value under the new key. -/
def renameStep (c : Config) (p : String × String) : Config :=
  match c p.1 with
  | some v => setK (delK c p.1) p.2 v
  | none => c

/-- Fold of `renameStep` over a rename table. -/
def renameFold (c : Config) (l : List (String × String)) : Config :=
  l.foldl renameStep c

/-- The rename pass of `upgrade_config` (its first `for` loop). -/
def renamePass (c : Config) : Config := renameFold c RENAMES

/-- One step of the default-injection loops of `upgrade_config`: add the
key with its default value only when absent. -/
def updateStep (c : Config) (p : String × Value) : Config :=
  if (c p.1).isSome then c else setK c p.1 p.2

/-- Fold of `updateStep` over a defaults table. -/
def addAbsent (c : Config) (l : List (String × Value)) : Config :=
  l.foldl updateStep c

/-- The index-prefix path-normalization step of `upgrade_config` for one
key: `prefix = os.path.split(config[key])[1]; config[key] = prefix`.
The unguarded subscript raises `KeyError` when the key is absent, and
`os.path.split` raises `TypeError` on a non-string value; both failure
modes are modelled by `none`. -/
def indexPassKey (c : Config) (k : String) : Option Config :=
  match c k with
  | some (Value.str s) => some (setK c k (Value.str (pySplitTail s)))
  | _ => none

/-- The index-prefix path-normalization pass of `upgrade_config`, over
`[params.RRNA_INDEX_PREFIX, params.ORF_INDEX_PREFIX]` in that order. -/
def indexPass (c : Config) : Option Config :=
  (indexPassKey c RRNA_INDEX_KEY).bind fun c2 => indexPassKey c2 ORF_INDEX_KEY

/-- The removal pass of `upgrade_config` (its last `for` loop). -/
def removeUnused (c : Config) : Config := UNUSED.foldl delK c

/-- The configuration-after-defaults intermediate state of
`upgrade_config`: renames, then `UPDATES` defaults, then job-config
defaults. -/
def afterDefaults (c : Config) : Config :=
  addAbsent (addAbsent (renamePass c) UPDATES) jobConfigUpgrade

/-- The Config Upgrade Transformer `upgrade_config(config)`: renames,
default injection (`UPDATES` then the job defaults without
`nextflow_resume`), index-prefix path normalization, and removal of
unused parameters; `none` models an uncaught Python exception. -/
def upgrade_config (c : Config) : Option Config :=
  (indexPass (afterDefaults c)).map removeUnused

/-- Wrapper `upgrade_config_file(input_file, output_file)`, shallowly
embedded over a file-system oracle: the leading assertion
`os.path.exists(input_file) and os.path.isfile(input_file)` fails (outer
`none`) before the configuration is read or transformed; otherwise the
parsed configuration is upgraded. -/
def upgrade_config_file (fsExists fsIsFile : String → Bool)
    (inputFile : String) (parsed : Config) : Option (Option Config) :=
  if fsExists inputFile && fsIsFile inputFile then some (upgrade_config parsed)
  else none

/-- Outcome of one check of the test orchestration layer: pass,
fail (a failed comparison or assertion), or skip with the reason string
passed to `pytest.skip`. -/
inductive Outcome where
  | passed
  | failed
  | skipped (reason : String)
deriving DecidableEq

/-- Modelled from the spec: `sam_bam.BAM_FORMAT` applied to a sample
name, the per-sample BAM artifact name (`riboviz/sam_bam.py` is not part
of this excerpt; the spec fixes the naming conventions). -/
def bamName (sample : String) : String := sample ++ ".bam"

/-- Modelled from the spec: `sam_bam.BAI_FORMAT` applied to a BAM file
name; the spec states the index file name is the BAM name plus a fixed
suffix. -/
def baiName (bamFile : String) : String := bamFile ++ ".bai"

/-- Modelled from the spec: `workflow_files.DEDUP_STATS_FORMAT` applied
to a statistics-kind file name; the spec states deduplication statistics
file names are a fixed prefix plus the stats-kind suffix. -/
def dedupStatsName (statsFile : String) : String := "dedup_stats_" ++ statsFile

/-- Skip reason used by both suites when the expected-side file is
absent. -/
def SKIP_NO_EXPECTED : String := "Skipped as expected file does not exist"

/-- The Path Resolver shared by both test suites: the expected data
directory for an actual directory is the last path segment of the
actual directory joined under the expected-results root
(`os.path.join(expected_fixture, os.path.basename(os.path.normpath(d)))`). -/
def resolveExpectedDir (expectedFixture actualDir : String) : String :=
  pyJoin expectedFixture (pyBasename (pyNormpath actualDir))

/-- Integration test `test_bedtools_bedgraph`: skipped when
`make_bedgraph` is false, otherwise the bedgraph comparison decides the
outcome.  The comparator is an oracle argument; the degenerate skip
reason string reproduces the source's `'...'.format(make_bedgraph)`
applied to a format string without a placeholder. -/
def test_bedtools_bedgraph_integ (makeBedgraph : Bool)
    (expectedFixture dirOut sample fileName : String)
    (equalBedgraph : String → String → Bool) : Outcome :=
  if !makeBedgraph then Outcome.skipped "Skipped test as make_bedgraph: "
  else
    let expectedFile :=
      pyJoin (pyJoin (resolveExpectedDir expectedFixture dirOut) sample) fileName
    if equalBedgraph expectedFile (pyJoin (pyJoin dirOut sample) fileName) then
      Outcome.passed
    else Outcome.failed

/-- Integration test `test_umitools_extract_fq`: skipped when
`extract_umis` is false, otherwise the FASTQ comparison decides the
outcome. -/
def test_umitools_extract_fq_integ (extractUmis : Bool)
    (expectedFixture dirTmp sample umiExtractFq : String)
    (equalFastq : String → String → Bool) : Outcome :=
  if !extractUmis then Outcome.skipped "Skipped test applicable to UMI extraction"
  else
    if equalFastq
        (pyJoin (pyJoin (resolveExpectedDir expectedFixture dirTmp) sample) umiExtractFq)
        (pyJoin (pyJoin dirTmp sample) umiExtractFq) then
      Outcome.passed
    else Outcome.failed

/-- Integration test `test_umitools_dedup_stats_tsv`: skipped when
`dedup_umis` or `dedup_stats` is false or the expected file is absent,
otherwise only the existence of the actual file is asserted. -/
def test_umitools_dedup_stats_integ (dedupUmis dedupStats : Bool)
    (expectedFixture dirTmp sample statsFile : String)
    (fsExists : String → Bool) : Outcome :=
  if !dedupUmis then Outcome.skipped "Skipped test as dedup_umis: "
  else if !dedupStats then Outcome.skipped "Skipped test as dedup_stats: "
  else
    let fileName := pyJoin sample (dedupStatsName statsFile)
    let expectedFile := pyJoin (resolveExpectedDir expectedFixture dirTmp) fileName
    if !fsExists expectedFile then Outcome.skipped SKIP_NO_EXPECTED
    else if fsExists (pyJoin dirTmp fileName) then Outcome.passed
    else Outcome.failed

/-- Integration test `test_samtools_view_sort_index`: skipped when the
expected BAM is absent; the actual BAM and its BAI index are asserted to
exist; when `dedup_umis` is true the test returns at that point, and
only when it is false are the BAM contents and BAI file sizes
compared. -/
def test_samtools_view_sort_index_integ (dedupUmis : Bool)
    (expectedFixture dirOut sample : String) (fsExists : String → Bool)
    (equalBam equalFileSizes : String → String → Bool) : Outcome :=
  let fileName := bamName sample
  let baiFileName := baiName fileName
  let expectedFile :=
    pyJoin (pyJoin (resolveExpectedDir expectedFixture dirOut) sample) fileName
  if !fsExists expectedFile then Outcome.skipped SKIP_NO_EXPECTED
  else
    let actualFile := pyJoin (pyJoin dirOut sample) fileName
    if !fsExists actualFile then Outcome.failed
    else
      let expectedBaiFile :=
        pyJoin (pyJoin (resolveExpectedDir expectedFixture dirOut) sample) baiFileName
      let actualBaiFile := pyJoin (pyJoin dirOut sample) baiFileName
      if !fsExists actualBaiFile then Outcome.failed
      else if dedupUmis then Outcome.passed
      else if equalBam expectedFile actualFile then
        if equalFileSizes expectedBaiFile actualBaiFile then Outcome.passed
        else Outcome.failed
      else Outcome.failed

/-- Regression test `test_bedtools_bedgraph`: no feature flag is
consulted; skipped only when the expected file is absent, otherwise the
file comparison decides the outcome. -/
def test_bedtools_bedgraph_regr (expectedFixture outputDir sample fileName : String)
    (fsExists : String → Bool) (compareFiles : String → String → Bool) : Outcome :=
  let expectedFile :=
    pyJoin (pyJoin (resolveExpectedDir expectedFixture outputDir) sample) fileName
  if !fsExists expectedFile then Outcome.skipped SKIP_NO_EXPECTED
  else if compareFiles expectedFile (pyJoin (pyJoin outputDir sample) fileName) then
    Outcome.passed
  else Outcome.failed

/-- Regression test `test_umitools_extract_fq`: skipped when
`extract_umis` is false, otherwise the file comparison decides the
outcome. -/
def test_umitools_extract_fq_regr (extractUmis : Bool)
    (expectedFixture tmpDir sample umiExtractFq : String)
    (compareFiles : String → String → Bool) : Outcome :=
  if !extractUmis then Outcome.skipped "Skipped test applicable to UMI extraction"
  else
    if compareFiles
        (pyJoin (pyJoin (resolveExpectedDir expectedFixture tmpDir) sample) umiExtractFq)
        (pyJoin (pyJoin tmpDir sample) umiExtractFq) then
      Outcome.passed
    else Outcome.failed

/-- Regression test `test_umitools_dedup_stats_tsv`: skipped when
`dedup_umis` or `dedup_stats` is false or the expected file is absent,
otherwise only the existence of the actual file is asserted. -/
def test_umitools_dedup_stats_regr (dedupUmis dedupStats : Bool)
    (expectedFixture tmpDir sample statsFile : String)
    (fsExists : String → Bool) : Outcome :=
  if !dedupUmis then Outcome.skipped "Skipped test applicable to UMI deduplication"
  else if !dedupStats then
    Outcome.skipped "Skipped test applicable to UMI deduplication statistics"
  else
    let fileName := pyJoin sample (dedupStatsName statsFile)
    let expectedFile := pyJoin (resolveExpectedDir expectedFixture tmpDir) fileName
    if !fsExists expectedFile then Outcome.skipped SKIP_NO_EXPECTED
    else if fsExists (pyJoin tmpDir fileName) then Outcome.passed
    else Outcome.failed

/-- Regression test `test_samtools_view_sort_index`: same shape as the
integration one, with `compare_files` used for both the BAM and the BAI
comparison. -/
def test_samtools_view_sort_index_regr (dedupUmis : Bool)
    (expectedFixture outputDir sample : String) (fsExists : String → Bool)
    (compareFiles : String → String → Bool) : Outcome :=
  let fileName := bamName sample
  let baiFileName := baiName fileName
  let expectedFile :=
    pyJoin (pyJoin (resolveExpectedDir expectedFixture outputDir) sample) fileName
  if !fsExists expectedFile then Outcome.skipped SKIP_NO_EXPECTED
  else
    let actualFile := pyJoin (pyJoin outputDir sample) fileName
    let actualBaiFile := pyJoin (pyJoin outputDir sample) baiFileName
    if !fsExists actualFile then Outcome.failed
    else if !fsExists actualBaiFile then Outcome.failed
    else if dedupUmis then Outcome.passed
    else if compareFiles expectedFile actualFile then
      if compareFiles
          (pyJoin (pyJoin (resolveExpectedDir expectedFixture outputDir) sample) baiFileName)
          actualBaiFile then
        Outcome.passed
      else Outcome.failed
    else Outcome.failed

/-- A legacy vignette-style configuration carrying both legacy index
keys. -/
def cfgVignette : Config :=
  setK (setK emptyConfig "orf_index" (Value.str "vignette/index/YAL_CDS_w_250"))
    "rRNA_index" (Value.str "vignette/index/yeast_rRNA")

/-- The configuration produced by upgrading `cfgVignette`. -/
def upgradedVignette : Config :=
  (upgrade_config cfgVignette).getD emptyConfig

/-- A configuration containing neither a legacy index key nor a current
index-prefix key. -/
def cfgNoIndex : Config := setK emptyConfig "buffer" (Value.int 250)

/-- A configuration with current index-prefix keys, one obsolete key and
one unknown key. -/
def cfgUnknown : Config :=
  setK (setK (setK (setK emptyConfig
    RRNA_INDEX_KEY (Value.str "yeast_rRNA"))
    ORF_INDEX_KEY (Value.str "YAL_CDS_w_250"))
    "aligner" (Value.str "hisat2"))
    "zzz_unknown" (Value.int 7)

/-- The configuration produced by upgrading `cfgUnknown`. -/
def upgradedUnknown : Config :=
  (upgrade_config cfgUnknown).getD emptyConfig

/-- A configuration whose rRNA index-prefix value ends in a path
separator. -/
def cfgTrailing : Config :=
  setK (setK emptyConfig
    RRNA_INDEX_KEY (Value.str "vignette/index/"))
    ORF_INDEX_KEY (Value.str "YAL_CDS_w_250")

/-- The configuration produced by upgrading `cfgTrailing`. -/
def upgradedTrailing : Config :=
  (upgrade_config cfgTrailing).getD emptyConfig

/-- Pointwise behaviour of `setK`. -/
theorem setK_apply (c : Config) (k : String) (v : Value) (q : String) :
    setK c k v q = if q = k then some v else c q := rfl

/-- Pointwise behaviour of `delK`. -/
theorem delK_apply (c : Config) (k : String) (q : String) :
    delK c k q = if q = k then none else c q := rfl

/-- Storing a value a key already holds is the identity. -/
theorem setK_self {c : Config} {k : String} {v : Value} (h : c k = some v) :
    setK c k v = c := by
  funext q
  rw [setK_apply]
  by_cases hq : q = k
  · subst hq; simp [h]
  · simp [hq]

/-- Deleting an absent key is the identity. -/
theorem delK_absent {c : Config} {k : String} (h : c k = none) :
    delK c k = c := by
  funext q
  rw [delK_apply]
  by_cases hq : q = k
  · subst hq; simp [h]
  · simp [hq]

/-- Lookup in an association list misses exactly when the key is not
among the listed keys. -/
theorem lookupL_eq_none_iff (l : List (String × Value)) (k : String) :
    lookupL l k = none ↔ k ∉ l.map Prod.fst := by
  induction l with
  | nil => simp [lookupL]
  | cons p t ih =>
    by_cases hk : k = p.1
    · subst hk; simp [lookupL]
    · simp [lookupL, hk, ih, Ne.symm hk]

/-- Lookup in an association list with pairwise distinct keys finds the
unique listed value. -/
theorem lookupL_of_nodup_mem {l : List (String × Value)} {k : String} {v : Value}
    (hnd : (l.map Prod.fst).Nodup) (hm : (k, v) ∈ l) :
    lookupL l k = some v := by
  induction l with
  | nil => cases hm
  | cons p t ih =>
    rcases List.mem_cons.mp hm with hh | ht
    · rw [← hh]; simp [lookupL]
    · have hk : k ∈ t.map Prod.fst := List.mem_map.mpr ⟨(k, v), ht, rfl⟩
      have hne : k ≠ p.1 := by
        rintro rfl
        exact (List.nodup_cons.mp hnd).1 hk
      rw [lookupL, if_neg hne]
      exact ih (List.nodup_cons.mp hnd).2 ht

/-- Default injection never changes a key that is already present. -/
theorem addAbsent_of_present {c : Config} {k : String} {v : Value}
    (l : List (String × Value)) (h : c k = some v) :
    addAbsent c l k = some v := by
  induction l generalizing c with
  | nil => exact h
  | cons p t ih =>
    show addAbsent (updateStep c p) t k = some v
    refine ih ?_
    rw [updateStep]
    split
    · exact h
    · rw [setK_apply]
      split
      · next hq =>
        subst hq
        simp_all
      · exact h

/-- Default injection fills an absent key with the first listed default
for it (or leaves it absent when the table does not list it). -/
theorem addAbsent_of_not_found {c : Config} {k : String}
    (l : List (String × Value)) (h : c k = none) :
    addAbsent c l k = lookupL l k := by
  induction l generalizing c with
  | nil => exact h
  | cons p t ih =>
    show addAbsent (updateStep c p) t k = lookupL (p :: t) k
    by_cases hk : k = p.1
    · subst hk
      have hnone : ¬ (c p.1).isSome := by rw [h]; simp
      rw [updateStep, if_neg hnone, lookupL, if_pos rfl]
      exact addAbsent_of_present t (by rw [setK_apply, if_pos rfl])
    · have hstep : updateStep c p k = none := by
        rw [updateStep]
        split
        · exact h
        · rw [setK_apply, if_neg hk]; exact h
      rw [lookupL, if_neg hk]
      exact ih hstep

/-- Default injection over a table whose keys are all present is the
identity on the configuration. -/
theorem addAbsent_of_all_present {c : Config} {l : List (String × Value)}
    (h : ∀ p ∈ l, (c p.1).isSome) : addAbsent c l = c := by
  funext q
  cases hc : c q with
  | some v => exact addAbsent_of_present l hc
  | none =>
    rw [addAbsent_of_not_found l hc]
    rw [lookupL_eq_none_iff]
    intro hq
    rcases List.mem_map.mp hq with ⟨p, hp, hpk⟩
    have := h p hp
    rw [hpk, hc] at this
    simp at this

/-- Pointwise behaviour of a fold of deletions: a key is erased exactly
when listed. -/
theorem delFold_apply (l : List String) (c : Config) (k : String) :
    l.foldl delK c k = if k ∈ l then none else c k := by
  induction l generalizing c with
  | nil => simp
  | cons x t ih =>
    show t.foldl delK (delK c x) k = _
    rw [ih, delK_apply]
    by_cases hk : k ∈ t
    · simp [hk]
    · by_cases hx : k = x
      · subst hx; simp [hk]
      · simp [hk, hx]

/-- Folding deletions of keys that are all absent is the identity. -/
theorem delFold_of_absent {l : List String} {c : Config}
    (h : ∀ x ∈ l, c x = none) : l.foldl delK c = c := by
  funext q
  rw [delFold_apply]
  split
  · next hq => exact (h q hq).symm
  · rfl

/-- Unfolding of one rename step on a present old key. -/
theorem renameStep_of_some {c : Config} {p : String × String} {v : Value}
    (h : c p.1 = some v) : renameStep c p = setK (delK c p.1) p.2 v := by
  unfold renameStep
  rw [h]

/-- Unfolding of one rename step on an absent old key. -/
theorem renameStep_of_none {c : Config} {p : String × String}
    (h : c p.1 = none) : renameStep c p = c := by
  unfold renameStep
  rw [h]

/-- Fold recursion for the rename pass. -/
theorem renameFold_cons (c : Config) (p : String × String)
    (t : List (String × String)) :
    renameFold c (p :: t) = renameFold (renameStep c p) t := rfl

/-- The rename pass is the identity when none of its old keys is
present. -/
theorem renameFold_no_src {l : List (String × String)} {c : Config}
    (h : ∀ p ∈ l, c p.1 = none) : renameFold c l = c := by
  induction l with
  | nil => rfl
  | cons p t ih =>
    rw [renameFold_cons, renameStep_of_none (h p (List.mem_cons_self p t))]
    exact ih fun q hq => h q (List.mem_cons_of_mem p hq)

/-- The rename pass does not change a key that appears in it neither as
an old name nor as a new name. -/
theorem renameFold_untouched (l : List (String × String)) (k : String)
    (hf : k ∉ l.map Prod.fst) (hs : k ∉ l.map Prod.snd) :
    ∀ c : Config, renameFold c l k = c k := by
  induction l with
  | nil => intro c; rfl
  | cons p t ih =>
    intro c
    have hk1 : k ≠ p.1 := fun h => hf (by simp [h])
    have hk2 : k ≠ p.2 := fun h => hs (by simp [h])
    have hf' : k ∉ t.map Prod.fst := fun h => hf (by simp [h])
    have hs' : k ∉ t.map Prod.snd := fun h => hs (by simp [h])
    rw [renameFold_cons]
    cases hc : c p.1 with
    | none => rw [renameStep_of_none hc]; exact ih hf' hs' c
    | some v =>
      rw [renameStep_of_some hc, ih hf' hs' _, setK_apply, if_neg hk2,
        delK_apply, if_neg hk1]

/-- A key that is absent and is never a rename target stays absent
through the rename pass. -/
theorem renameFold_src_absent (l : List (String × String)) (k : String)
    (hs : k ∉ l.map Prod.snd) :
    ∀ c : Config, c k = none → renameFold c l k = none := by
  induction l with
  | nil => intro c hc; exact hc
  | cons p t ih =>
    intro c hc
    have hk2 : k ≠ p.2 := fun h => hs (by simp [h])
    have hs' : k ∉ t.map Prod.snd := fun h => hs (by simp [h])
    rw [renameFold_cons]
    cases hcp : c p.1 with
    | none => rw [renameStep_of_none hcp]; exact ih hs' c hc
    | some v =>
      refine ih hs' _ ?_
      rw [renameStep_of_some hcp, setK_apply, if_neg hk2, delK_apply]
      split
      · rfl
      · exact hc

/-- After the rename pass, every old key that is never also a rename
target is absent. -/
theorem renameFold_src_del (l : List (String × String)) (k : String)
    (hf : k ∈ l.map Prod.fst) (hs : k ∉ l.map Prod.snd) :
    ∀ c : Config, renameFold c l k = none := by
  induction l with
  | nil => cases hf
  | cons p t ih =>
    intro c
    have hk2 : k ≠ p.2 := fun h => hs (by simp [h])
    have hs' : k ∉ t.map Prod.snd := fun h => hs (by simp [h])
    rw [renameFold_cons]
    by_cases hk1 : k = p.1
    · subst hk1
      cases hcp : c p.1 with
      | none => rw [renameStep_of_none hcp]; exact renameFold_src_absent t p.1 hs' c hcp
      | some v =>
        refine renameFold_src_absent t p.1 hs' _ ?_
        rw [renameStep_of_some hcp, setK_apply, if_neg hk2, delK_apply,
          if_pos rfl]
    · have hf' : k ∈ t.map Prod.fst := by
        rcases List.mem_map.mp hf with ⟨q, hq, hqk⟩
        rcases List.mem_cons.mp hq with hh | ht
        · exact absurd (by rw [← hqk, hh]) hk1
        · exact List.mem_map.mpr ⟨q, ht, hqk⟩
      exact ih hf' hs' _

/-- The rename pass leaves a rename-target key unchanged when no rename
into it has its old key present (old keys being globally disjoint from
new keys). -/
theorem renameFold_tgt_keep (l : List (String × String)) (k : String)
    (hd : ∀ p ∈ l, p.1 ∉ l.map Prod.snd) (hf : k ∉ l.map Prod.fst) :
    ∀ c : Config, (∀ p ∈ l, p.2 = k → c p.1 = none) →
      renameFold c l k = c k := by
  induction l with
  | nil => intro c _; rfl
  | cons p t ih =>
    intro c habs
    have hk1 : k ≠ p.1 := fun h => hf (by simp [h])
    have hf' : k ∉ t.map Prod.fst := fun h => hf (by simp [h])
    have hd' : ∀ q ∈ t, q.1 ∉ t.map Prod.snd := fun q hq hmem =>
      hd q (List.mem_cons_of_mem p hq) (by simp [hmem])
    have habs' : ∀ q ∈ t, q.2 = k → c q.1 = none := fun q hq hqk =>
      habs q (List.mem_cons_of_mem p hq) hqk
    rw [renameFold_cons]
    by_cases hpk : p.2 = k
    · rw [renameStep_of_none (habs p (List.mem_cons_self p t) hpk)]
      exact ih hd' hf' c habs'
    · cases hcp : c p.1 with
      | none =>
        rw [renameStep_of_none hcp]
        exact ih hd' hf' c habs'
      | some v =>
        rw [renameStep_of_some hcp]
        have habs'' : ∀ q ∈ t, q.2 = k →
            setK (delK c p.1) p.2 v q.1 = none := by
          intro q hq hqk
          have hq2 : q.1 ≠ p.2 := fun h =>
            hd q (List.mem_cons_of_mem p hq) (by simp [h])
          rw [setK_apply, if_neg hq2, delK_apply]
          split
          · rfl
          · exact habs q (List.mem_cons_of_mem p hq) hqk
        rw [ih hd' hf' _ habs'', setK_apply, if_neg (fun h => hpk h.symm),
          delK_apply, if_neg hk1]

/-- The rename pass moves the value of a present old key to its new key,
provided old keys are pairwise distinct and disjoint from new keys, and
no other rename into the same new key has its old key present. -/
theorem renameFold_tgt_move (l : List (String × String)) (k ok : String)
    (v : Value) (hd : ∀ p ∈ l, p.1 ∉ l.map Prod.snd)
    (hnod : (l.map Prod.fst).Nodup) (hf : k ∉ l.map Prod.fst)
    (hmem : (ok, k) ∈ l) :
    ∀ c : Config, c ok = some v →
      (∀ p ∈ l, p.2 = k → p.1 = ok ∨ c p.1 = none) →
      renameFold c l k = some v := by
  induction l with
  | nil => cases hmem
  | cons p t ih =>
    intro c hok huniq
    have hokf : ok ∈ (p :: t).map Prod.fst :=
      List.mem_map.mpr ⟨(ok, k), hmem, rfl⟩
    have hokk : ok ≠ k := fun h => hf (h ▸ hokf)
    have hd' : ∀ q ∈ t, q.1 ∉ t.map Prod.snd := fun q hq hmem2 =>
      hd q (List.mem_cons_of_mem p hq) (by simp [hmem2])
    have hf' : k ∉ t.map Prod.fst := fun h => hf (by simp [h])
    have hnod2 : (p.1 :: t.map Prod.fst).Nodup := by
      simpa only [List.map_cons] using hnod
    have hnd := List.nodup_cons.mp hnod2
    rw [renameFold_cons]
    rcases List.mem_cons.mp hmem with hh | ht
    · -- the head entry is the rename (ok, k) itself
      subst hh
      rw [renameStep_of_some hok]
      have habs : ∀ q ∈ t, q.2 = k → setK (delK c ok) k v q.1 = none := by
        intro q hq hqk
        have hq1f : q.1 ∈ ((ok, k) :: t).map Prod.fst :=
          List.mem_map.mpr ⟨q, List.mem_cons_of_mem _ hq, rfl⟩
        have hq1k : q.1 ≠ k := fun h => hf (h ▸ hq1f)
        rw [setK_apply, if_neg hq1k, delK_apply]
        split
        · rfl
        · next hq1ok =>
          rcases huniq q (List.mem_cons_of_mem _ hq) hqk with h1 | h1
          · exact absurd h1 hq1ok
          · exact h1
      rw [renameFold_tgt_keep t k hd' hf' _ habs, setK_apply, if_pos rfl]
    · -- the rename (ok, k) sits in the tail
      have hpok : p.1 ≠ ok := by
        intro h
        exact hnd.1 (h ▸ List.mem_map.mpr ⟨(ok, k), ht, rfl⟩)
      have huniq' : ∀ q ∈ t, q.2 = k → q.1 = ok ∨ c q.1 = none := fun q hq =>
        huniq q (List.mem_cons_of_mem p hq)
      cases hcp : c p.1 with
      | none =>
        rw [renameStep_of_none hcp]
        exact ih hd' hnd.2 hf' ht c hok huniq'
      | some w =>
        rw [renameStep_of_some hcp]
        have hok' : setK (delK c p.1) p.2 w ok = some v := by
          have hokp2 : ok ≠ p.2 := fun h => hd (ok, k) hmem (by simp [h])
          rw [setK_apply, if_neg hokp2, delK_apply, if_neg (Ne.symm hpok)]
          exact hok
        have huniq'' : ∀ q ∈ t, q.2 = k →
            q.1 = ok ∨ setK (delK c p.1) p.2 w q.1 = none := by
          intro q hq hqk
          rcases huniq q (List.mem_cons_of_mem p hq) hqk with h1 | h1
          · exact Or.inl h1
          · refine Or.inr ?_
            have hq2 : q.1 ≠ p.2 := fun h =>
              hd q (List.mem_cons_of_mem p hq) (by simp [h])
            rw [setK_apply, if_neg hq2, delK_apply]
            split
            · rfl
            · exact h1
        exact ih hd' hnd.2 hf' ht _ hok' huniq''

/-- The accumulator of `lastSegAux` never contains a separator when it
starts without one. -/
theorem lastSegAux_no_sep {acc : List Char} (h : '/' ∉ acc)
    (cs : List Char) : '/' ∉ lastSegAux acc cs := by
  induction cs generalizing acc with
  | nil => exact h
  | cons ch t ih =>
    rw [lastSegAux]
    by_cases hch : ch = '/'
    · rw [if_pos hch]
      exact ih (by simp)
    · rw [if_neg hch]
      refine ih ?_
      intro hmem
      rcases List.mem_append.mp hmem with h1 | h1
      · exact h h1
      · exact hch (List.mem_singleton.mp h1).symm

/-- On separator-free input, `lastSegAux` appends the input to the
accumulator. -/
theorem lastSegAux_of_no_sep {cs : List Char} (h : '/' ∉ cs)
    (acc : List Char) : lastSegAux acc cs = acc ++ cs := by
  induction cs generalizing acc with
  | nil => simp [lastSegAux]
  | cons ch t ih =>
    have hch : ch ≠ '/' := fun he => h (by simp [he])
    rw [lastSegAux, if_neg hch, ih (fun hm => h (List.mem_cons_of_mem ch hm))]
    simp

/-- The tail component of a split contains no separator. -/
theorem pySplitTail_no_sep (s : String) : '/' ∉ (pySplitTail s).data :=
  lastSegAux_no_sep (by simp) s.data

/-- The tail component of `os.path.split` is idempotent: splitting an
already-bare file name is a no-op. -/
theorem pySplitTail_idem (s : String) :
    pySplitTail (pySplitTail s) = pySplitTail s := by
  show String.mk (lastSegAux [] (pySplitTail s).data) = pySplitTail s
  rw [lastSegAux_of_no_sep (pySplitTail_no_sep s) [], List.nil_append]

/-- A character list ending in a separator has an empty last segment. -/
theorem lastSegAux_sep_end (cs : List Char) (acc : List Char) :
    lastSegAux acc (cs ++ ['/']) = [] := by
  induction cs generalizing acc with
  | nil => rfl
  | cons ch t ih =>
    rw [List.cons_append, lastSegAux]
    exact ih _

/-- A string ending in the path separator splits to an empty tail: the
final path segment of such a value is the empty string. -/
theorem pySplitTail_push_sep (s : String) : pySplitTail (s.push '/') = "" := by
  show String.mk (lastSegAux [] (s.push '/').data) = ""
  have hdata : (s.push '/').data = s.data ++ ['/'] := rfl
  rw [hdata, lastSegAux_sep_end]

/-- Inversion for one index-prefix normalization step. -/
theorem indexPassKey_eq_some {c : Config} {k : String} {c2 : Config}
    (h : indexPassKey c k = some c2) :
    ∃ s, c k = some (Value.str s) ∧ c2 = setK c k (Value.str (pySplitTail s)) := by
  unfold indexPassKey at h
  cases hc : c k with
  | none => rw [hc] at h; cases h
  | some v =>
    rw [hc] at h
    cases v with
    | str s => exact ⟨s, rfl, by cases h; rfl⟩
    | null => cases h
    | bool b => cases h
    | int n => cases h
    | list es => cases h
    | dict es => cases h

/-- One index-prefix normalization step on a present string value. -/
theorem indexPassKey_of_str {c : Config} {k : String} {s : String}
    (h : c k = some (Value.str s)) :
    indexPassKey c k = some (setK c k (Value.str (pySplitTail s))) := by
  unfold indexPassKey
  rw [h]

/-- One index-prefix normalization step fails on an absent key
(Python `KeyError`). -/
theorem indexPassKey_of_none {c : Config} {k : String}
    (h : c k = none) : indexPassKey c k = none := by
  unfold indexPassKey
  rw [h]

/-- The two index-prefix keys are distinct. -/
theorem rrna_ne_orf : RRNA_INDEX_KEY ≠ ORF_INDEX_KEY := by decide

/-- Inversion of a successful run of `upgrade_config`: the intermediate
configuration holds string values at both index-prefix keys, and the
result is obtained by normalizing them and removing the unused keys. -/
theorem upgrade_config_eq_some {c : Config} {c' : Config}
    (h : upgrade_config c = some c') :
    ∃ s t, afterDefaults c RRNA_INDEX_KEY = some (Value.str s) ∧
      afterDefaults c ORF_INDEX_KEY = some (Value.str t) ∧
      c' = removeUnused
        (setK (setK (afterDefaults c) RRNA_INDEX_KEY (Value.str (pySplitTail s)))
          ORF_INDEX_KEY (Value.str (pySplitTail t))) := by
  unfold upgrade_config at h
  cases hip : indexPass (afterDefaults c) with
  | none => rw [hip] at h; cases h
  | some c4 =>
    rw [hip] at h
    unfold indexPass at hip
    cases hk1 : indexPassKey (afterDefaults c) RRNA_INDEX_KEY with
    | none => rw [hk1] at hip; cases hip
    | some cA =>
      rw [hk1] at hip
      change indexPassKey cA ORF_INDEX_KEY = some c4 at hip
      rcases indexPassKey_eq_some hk1 with ⟨s, hs, hcA⟩
      rcases indexPassKey_eq_some hip with ⟨t, ht, hc4⟩
      refine ⟨s, t, hs, ?_, ?_⟩
      · rw [hcA, setK_apply, if_neg (Ne.symm rrna_ne_orf)] at ht
        exact ht
      · change some (removeUnused c4) = some c' at h
        cases h
        rw [hc4, hcA]

/-- A successful upgrade, given string values at both index keys after
the rename and default passes. -/
theorem upgrade_config_of_str {c : Config} {s t : String}
    (hs : afterDefaults c RRNA_INDEX_KEY = some (Value.str s))
    (ht : afterDefaults c ORF_INDEX_KEY = some (Value.str t)) :
    upgrade_config c = some (removeUnused
      (setK (setK (afterDefaults c) RRNA_INDEX_KEY (Value.str (pySplitTail s)))
        ORF_INDEX_KEY (Value.str (pySplitTail t)))) := by
  unfold upgrade_config indexPass
  rw [indexPassKey_of_str hs]
  have ht' : setK (afterDefaults c) RRNA_INDEX_KEY (Value.str (pySplitTail s))
      ORF_INDEX_KEY = some (Value.str t) := by
    rw [setK_apply, if_neg (Ne.symm rrna_ne_orf)]
    exact ht
  show (indexPassKey (setK (afterDefaults c) RRNA_INDEX_KEY
    (Value.str (pySplitTail s))) ORF_INDEX_KEY).map removeUnused = _
  rw [indexPassKey_of_str ht']
  rfl

/-- The upgrade fails (Python `KeyError` or `TypeError`) when the rRNA
index-prefix key is absent after the rename and default passes. -/
theorem upgrade_config_of_rrna_absent {c : Config}
    (h : afterDefaults c RRNA_INDEX_KEY = none) :
    upgrade_config c = none := by
  unfold upgrade_config indexPass
  rw [indexPassKey_of_none h]
  rfl

/-- The upgrade fails when the ORF index-prefix key is absent after the
rename and default passes, even with a string value at the rRNA key. -/
theorem upgrade_config_of_orf_absent {c : Config} {s : String}
    (hs : afterDefaults c RRNA_INDEX_KEY = some (Value.str s))
    (h : afterDefaults c ORF_INDEX_KEY = none) :
    upgrade_config c = none := by
  unfold upgrade_config indexPass
  rw [indexPassKey_of_str hs]
  have h' : setK (afterDefaults c) RRNA_INDEX_KEY (Value.str (pySplitTail s))
      ORF_INDEX_KEY = none := by
    rw [setK_apply, if_neg (Ne.symm rrna_ne_orf)]
    exact h
  show (indexPassKey (setK (afterDefaults c) RRNA_INDEX_KEY
    (Value.str (pySplitTail s))) ORF_INDEX_KEY).map removeUnused = none
  rw [indexPassKey_of_none h']
  rfl

/-- The old names of the rename table are pairwise distinct. -/
theorem renames_src_nodup : (RENAMES.map Prod.fst).Nodup := by decide

/-- No old name of the rename table is also a new name. -/
theorem renames_src_not_tgt : ∀ p ∈ RENAMES, p.1 ∉ RENAMES.map Prod.snd := by
  decide

/-- No new name of the rename table is also an old name. -/
theorem renames_tgt_not_src : ∀ p ∈ RENAMES, p.2 ∉ RENAMES.map Prod.fst := by
  decide

/-- No old name of the rename table is a key of the `UPDATES` table. -/
theorem renames_src_no_update : ∀ p ∈ RENAMES,
    (lookupL UPDATES p.1).isNone = true := by decide

/-- No old name of the rename table is a key of the job defaults. -/
theorem renames_src_no_job : ∀ p ∈ RENAMES,
    (lookupL jobConfigUpgrade p.1).isNone = true := by decide

/-- No old name of the rename table is an index-prefix key. -/
theorem renames_src_not_index : ∀ p ∈ RENAMES,
    p.1 ≠ RRNA_INDEX_KEY ∧ p.1 ≠ ORF_INDEX_KEY := by decide

/-- No old name of the rename table is an unused key. -/
theorem renames_src_not_unused : ∀ p ∈ RENAMES, p.1 ∉ UNUSED := by decide

/-- No new name of the rename table is an unused key. -/
theorem renames_tgt_not_unused : ∀ p ∈ RENAMES, p.2 ∉ UNUSED := by decide

/-- The keys of the `UPDATES` table are pairwise distinct. -/
theorem updates_keys_nodup : (UPDATES.map Prod.fst).Nodup := by decide

/-- The keys of the applied job defaults are pairwise distinct. -/
theorem job_keys_nodup : (jobConfigUpgrade.map Prod.fst).Nodup := by decide

/-- No key of the `UPDATES` table is an index-prefix key. -/
theorem updates_not_index : ∀ p ∈ UPDATES,
    p.1 ≠ RRNA_INDEX_KEY ∧ p.1 ≠ ORF_INDEX_KEY := by decide

/-- No key of the applied job defaults is an index-prefix key. -/
theorem job_not_index : ∀ p ∈ jobConfigUpgrade,
    p.1 ≠ RRNA_INDEX_KEY ∧ p.1 ≠ ORF_INDEX_KEY := by decide

/-- No key of the `UPDATES` table is an unused key. -/
theorem updates_not_unused : ∀ p ∈ UPDATES, p.1 ∉ UNUSED := by decide

/-- No key of the applied job defaults is an unused key. -/
theorem job_not_unused : ∀ p ∈ jobConfigUpgrade, p.1 ∉ UNUSED := by decide

/-- No key of the applied job defaults is a key of `UPDATES`. -/
theorem job_no_update : ∀ p ∈ jobConfigUpgrade,
    (lookupL UPDATES p.1).isNone = true := by decide

/-- The index-prefix keys are not unused keys. -/
theorem index_not_unused :
    RRNA_INDEX_KEY ∉ UNUSED ∧ ORF_INDEX_KEY ∉ UNUSED := by decide

/-- The index-prefix keys are not old names of the rename table. -/
theorem index_not_src : RRNA_INDEX_KEY ∉ RENAMES.map Prod.fst ∧
    ORF_INDEX_KEY ∉ RENAMES.map Prod.fst := by decide

/-- The only rename targeting the rRNA index-prefix key comes from the
legacy key `rRNA_index`. -/
theorem rrna_src_unique : ∀ p ∈ RENAMES,
    p.2 = RRNA_INDEX_KEY → p.1 = "rRNA_index" := by decide

/-- The only rename targeting the ORF index-prefix key comes from the
legacy key `orf_index`. -/
theorem orf_src_unique : ∀ p ∈ RENAMES,
    p.2 = ORF_INDEX_KEY → p.1 = "orf_index" := by decide

/-- A key present after the rename pass keeps its value through both
default-injection passes. -/
theorem afterDefaults_of_present {c : Config} {k : String} {v : Value}
    (h : renamePass c k = some v) : afterDefaults c k = some v :=
  addAbsent_of_present jobConfigUpgrade
    (addAbsent_of_present UPDATES h)

/-- A key absent after the rename pass but listed in `UPDATES` receives
its `UPDATES` default. -/
theorem afterDefaults_of_absent_update {c : Config} {k : String} {v : Value}
    (h : renamePass c k = none) (hl : lookupL UPDATES k = some v) :
    afterDefaults c k = some v :=
  addAbsent_of_present jobConfigUpgrade
    (by rw [addAbsent_of_not_found UPDATES h]; exact hl)

/-- A key absent after the rename pass and not listed in `UPDATES` is
resolved by the job defaults table. -/
theorem afterDefaults_of_absent_job {c : Config} {k : String}
    (h : renamePass c k = none) (hl : lookupL UPDATES k = none) :
    afterDefaults c k = lookupL jobConfigUpgrade k := by
  have h2 : addAbsent (renamePass c) UPDATES k = none := by
    rw [addAbsent_of_not_found UPDATES h]; exact hl
  exact addAbsent_of_not_found jobConfigUpgrade h2

/-- Pointwise behaviour of the removal pass. -/
theorem removeUnused_apply (c : Config) (k : String) :
    removeUnused c k = if k ∈ UNUSED then none else c k :=
  delFold_apply UNUSED c k

/-- Every unused key is absent from the upgraded configuration. -/
theorem upgraded_unused {c c' : Config} (h : upgrade_config c = some c')
    {k : String} (hk : k ∈ UNUSED) : c' k = none := by
  rcases upgrade_config_eq_some h with ⟨s, t, _, _, rfl⟩
  rw [removeUnused_apply, if_pos hk]

/-- Away from the index-prefix and unused keys, the upgraded
configuration agrees with the configuration after renames and
defaults. -/
theorem upgraded_other {c c' : Config} (h : upgrade_config c = some c')
    {k : String} (hkr : k ≠ RRNA_INDEX_KEY) (hko : k ≠ ORF_INDEX_KEY)
    (hku : k ∉ UNUSED) : c' k = afterDefaults c k := by
  rcases upgrade_config_eq_some h with ⟨s, t, _, _, rfl⟩
  rw [removeUnused_apply, if_neg hku, setK_apply, if_neg hko, setK_apply,
    if_neg hkr]

/-- The upgraded configuration holds, at the rRNA index-prefix key, the
final path segment of the intermediate value there. -/
theorem upgraded_rrna {c c' : Config} (h : upgrade_config c = some c') :
    ∃ s, afterDefaults c RRNA_INDEX_KEY = some (Value.str s) ∧
      c' RRNA_INDEX_KEY = some (Value.str (pySplitTail s)) := by
  rcases upgrade_config_eq_some h with ⟨s, t, hs, _, rfl⟩
  refine ⟨s, hs, ?_⟩
  rw [removeUnused_apply, if_neg index_not_unused.1, setK_apply,
    if_neg rrna_ne_orf, setK_apply, if_pos rfl]

/-- The upgraded configuration holds, at the ORF index-prefix key, the
final path segment of the intermediate value there. -/
theorem upgraded_orf {c c' : Config} (h : upgrade_config c = some c') :
    ∃ t, afterDefaults c ORF_INDEX_KEY = some (Value.str t) ∧
      c' ORF_INDEX_KEY = some (Value.str (pySplitTail t)) := by
  rcases upgrade_config_eq_some h with ⟨s, t, _, ht, rfl⟩
  refine ⟨t, ht, ?_⟩
  rw [removeUnused_apply, if_neg index_not_unused.2, setK_apply, if_pos rfl]

/-- C1: applying the Config Upgrade Transformer `upgrade_config` twice
in succession yields the same mapping as applying it once (in the
Kleisli sense: a failing upgrade composed with itself still fails, and a
successful upgrade is a fixed point of the transformer); in particular
the index-prefix path normalization `os.path.split(...)[1]` is a no-op
on an already-bare file name. -/
theorem upgrade_config_idempotent :
    (∀ c : Config, (upgrade_config c).bind upgrade_config = upgrade_config c) ∧
    (∀ s : String, pySplitTail (pySplitTail s) = pySplitTail s) := by
  refine ⟨?_, pySplitTail_idem⟩
  intro c
  cases h : upgrade_config c with
  | none => rfl
  | some c' =>
    show upgrade_config c' = some c'
    have hA : renamePass c' = c' := by
      refine renameFold_no_src ?_
      intro p hp
      have hni := renames_src_not_index p hp
      have hnu := renames_src_not_unused p hp
      rw [upgraded_other h hni.1 hni.2 hnu]
      have hsrc : p.1 ∈ RENAMES.map Prod.fst := List.mem_map.mpr ⟨p, hp, rfl⟩
      have hren : renamePass c p.1 = none :=
        renameFold_src_del RENAMES p.1 hsrc (renames_src_not_tgt p hp) c
      have hup : lookupL UPDATES p.1 = none :=
        Option.isNone_iff_eq_none.mp (renames_src_no_update p hp)
      rw [afterDefaults_of_absent_job hren hup]
      exact Option.isNone_iff_eq_none.mp (renames_src_no_job p hp)
    have hUpd : ∀ p ∈ UPDATES, (c' p.1).isSome := by
      intro p hp
      have hni := updates_not_index p hp
      have hnu := updates_not_unused p hp
      rw [upgraded_other h hni.1 hni.2 hnu]
      cases hren : renamePass c p.1 with
      | some v => rw [afterDefaults_of_present hren]; rfl
      | none =>
        have hl : lookupL UPDATES p.1 = some p.2 :=
          lookupL_of_nodup_mem updates_keys_nodup (by rwa [Prod.mk.eta])
        rw [afterDefaults_of_absent_update hren hl]
        rfl
    have hJob : ∀ p ∈ jobConfigUpgrade, (c' p.1).isSome := by
      intro p hp
      have hni := job_not_index p hp
      have hnu := job_not_unused p hp
      rw [upgraded_other h hni.1 hni.2 hnu]
      cases hren : renamePass c p.1 with
      | some v => rw [afterDefaults_of_present hren]; rfl
      | none =>
        have hup : lookupL UPDATES p.1 = none :=
          Option.isNone_iff_eq_none.mp (job_no_update p hp)
        have hl : lookupL jobConfigUpgrade p.1 = some p.2 :=
          lookupL_of_nodup_mem job_keys_nodup (by rwa [Prod.mk.eta])
        rw [afterDefaults_of_absent_job hren hup, hl]
        rfl
    have hB : afterDefaults c' = c' := by
      unfold afterDefaults renamePass at hA ⊢
      rw [hA, addAbsent_of_all_present hUpd, addAbsent_of_all_present hJob]
    have hC : indexPass c' = some c' := by
      rcases upgraded_rrna h with ⟨s, _, hr⟩
      rcases upgraded_orf h with ⟨t, _, ho⟩
      unfold indexPass
      rw [indexPassKey_of_str hr, pySplitTail_idem, setK_self hr]
      show indexPassKey c' ORF_INDEX_KEY = some c'
      rw [indexPassKey_of_str ho, pySplitTail_idem, setK_self ho]
    have hD : removeUnused c' = c' :=
      delFold_of_absent (fun k hk => upgraded_unused h hk)
    show (indexPass (afterDefaults c')).map removeUnused = some c'
    rw [hB, hC]
    show some (removeUnused c') = some c'
    rw [hD]

/-- C2 (amended): for every legacy key of `RENAMES` present in the
input (with no competing legacy spelling of the same current key also
present), after a successful `upgrade_config` the legacy key is absent
and the corresponding current key holds the original value — except for
the index keys `orf_index` and `rRNA_index`, whose targets
`orf_index_prefix` and `rrna_index_prefix` hold the final path segment
of the original value instead. -/
theorem upgrade_config_renames (c : Config) (ok nk : String) (v : Value)
    (c' : Config) (hmem : (ok, nk) ∈ RENAMES) (hv : c ok = some v)
    (huniq : ∀ p ∈ RENAMES, p.2 = nk → p.1 = ok ∨ c p.1 = none)
    (h : upgrade_config c = some c') :
    c' ok = none ∧
    (nk ≠ RRNA_INDEX_KEY ∧ nk ≠ ORF_INDEX_KEY → c' nk = some v) ∧
    (nk = RRNA_INDEX_KEY ∨ nk = ORF_INDEX_KEY →
      ∃ s, v = Value.str s ∧ c' nk = some (Value.str (pySplitTail s))) := by
  have hsrc : ok ∈ RENAMES.map Prod.fst := List.mem_map.mpr ⟨(ok, nk), hmem, rfl⟩
  have hoknt : ok ∉ RENAMES.map Prod.snd := renames_src_not_tgt (ok, nk) hmem
  have hnksrc : nk ∉ RENAMES.map Prod.fst := renames_tgt_not_src (ok, nk) hmem
  have hrenk : renamePass c nk = some v :=
    renameFold_tgt_move RENAMES nk ok v renames_src_not_tgt renames_src_nodup
      hnksrc hmem c hv huniq
  have hadnk : afterDefaults c nk = some v := afterDefaults_of_present hrenk
  refine ⟨?_, ?_, ?_⟩
  · -- the legacy key is gone
    have hni := renames_src_not_index (ok, nk) hmem
    have hnu := renames_src_not_unused (ok, nk) hmem
    rw [upgraded_other h hni.1 hni.2 hnu]
    have hren : renamePass c ok = none :=
      renameFold_src_del RENAMES ok hsrc hoknt c
    have hup : lookupL UPDATES ok = none :=
      Option.isNone_iff_eq_none.mp (renames_src_no_update (ok, nk) hmem)
    rw [afterDefaults_of_absent_job hren hup]
    exact Option.isNone_iff_eq_none.mp (renames_src_no_job (ok, nk) hmem)
  · -- non-index targets keep the original value
    intro hne
    rw [upgraded_other h hne.1 hne.2 (renames_tgt_not_unused (ok, nk) hmem)]
    exact hadnk
  · -- index targets hold the final path segment of the original value
    rintro (rfl | rfl)
    · rcases upgraded_rrna h with ⟨s, hads, hc'⟩
      rw [hadnk] at hads
      injection hads with hvs
      exact ⟨s, hvs, hc'⟩
    · rcases upgraded_orf h with ⟨t, hads, hc'⟩
      rw [hadnk] at hads
      injection hads with hvs
      exact ⟨t, hvs, hc'⟩

/-- C2 (counterexample): on a configuration with
`orf_index: vignette/index/YAL_CDS_w_250`, after `upgrade_config` the
current key `orf_index_prefix` holds the bare file name, not the value
the legacy key had in the input, refuting the claim for the index
keys. -/
theorem upgrade_config_renames_cex :
    cfgVignette "orf_index" = some (Value.str "vignette/index/YAL_CDS_w_250") ∧
    (upgrade_config cfgVignette).map (fun cc => cc "orf_index_prefix") =
      some (some (Value.str "YAL_CDS_w_250")) ∧
    Value.str "YAL_CDS_w_250" ≠ Value.str "vignette/index/YAL_CDS_w_250" := by
  refine ⟨rfl, rfl, ?_⟩
  intro hcontra
  injection hcontra with h1
  exact absurd h1 (by decide)

/-- C2 (witness): the amended statement applied to the legacy key
`orf_index` of the concrete vignette configuration. -/
theorem upgrade_config_renames_wit :
    upgrade_config cfgVignette = some upgradedVignette ∧
    upgradedVignette "orf_index" = none ∧
    upgradedVignette "orf_index_prefix" = some (Value.str "YAL_CDS_w_250") := by
  have h : upgrade_config cfgVignette = some upgradedVignette := rfl
  have h2 := upgrade_config_renames cfgVignette "orf_index" "orf_index_prefix"
    (Value.str "vignette/index/YAL_CDS_w_250") upgradedVignette (by decide) rfl
    (fun p hp hpk => Or.inl (orf_src_unique p hp hpk)) h
  refine ⟨h, h2.1, ?_⟩
  rcases h2.2.2 (Or.inr rfl) with ⟨s, hs, hc⟩
  injection hs with hs1
  rw [← hs1] at hc
  exact hc

/-- C3 (amended): `upgrade_config_file` raises its existence assertion
exactly when the input path does not reference an existing regular
file, before the configuration is read or transformed; the transform
itself succeeds when, after the rename and default passes, both
index-prefix keys hold string values, and raises an uncaught error
(`KeyError`) when either index-prefix key is absent at that point — in
particular on mappings containing neither a legacy index key nor a
current index-prefix key. -/
theorem upgrade_config_file_error_semantics :
    (∀ (fsE fsF : String → Bool) (i : String) (cts : Config),
      upgrade_config_file fsE fsF i cts = none ↔ ¬(fsE i = true ∧ fsF i = true)) ∧
    (∀ c : Config, afterDefaults c RRNA_INDEX_KEY = none →
      upgrade_config c = none) ∧
    (∀ (c : Config) (s : String),
      afterDefaults c RRNA_INDEX_KEY = some (Value.str s) →
      afterDefaults c ORF_INDEX_KEY = none → upgrade_config c = none) ∧
    (∀ (c : Config) (s t : String),
      afterDefaults c RRNA_INDEX_KEY = some (Value.str s) →
      afterDefaults c ORF_INDEX_KEY = some (Value.str t) →
      ∃ c', upgrade_config c = some c') := by
  refine ⟨?_, fun c h => upgrade_config_of_rrna_absent h,
    fun c s hs h => upgrade_config_of_orf_absent hs h,
    fun c s t hs ht => ⟨_, upgrade_config_of_str hs ht⟩⟩
  intro fsE fsF i cts
  unfold upgrade_config_file
  by_cases hb : (fsE i && fsF i) = true
  · rw [if_pos hb]
    rcases Bool.and_eq_true_iff.mp hb with ⟨h1, h2⟩
    constructor
    · intro hnone
      exact absurd hnone (Option.some_ne_none _)
    · intro hc
      exact absurd ⟨h1, h2⟩ hc
  · rw [if_neg hb]
    constructor
    · intro _ hc
      exact hb (Bool.and_eq_true_iff.mpr hc)
    · intro _
      rfl

/-- C3 (counterexample): a parsed mapping that contains neither a
legacy index key nor a current index-prefix key makes the transform
itself fail (Python `KeyError` on `config[params.RRNA_INDEX_PREFIX]`),
refuting the claim that the transform raises no error there. -/
theorem upgrade_config_missing_index_cex :
    cfgNoIndex "orf_index" = none ∧ cfgNoIndex "rRNA_index" = none ∧
    cfgNoIndex "orf_index_prefix" = none ∧
    cfgNoIndex "rrna_index_prefix" = none ∧
    upgrade_config cfgNoIndex = none :=
  ⟨rfl, rfl, rfl, rfl, rfl⟩

/-- C3 (witness): the error-semantics statement applied to a missing
input file and to a concrete upgradable configuration. -/
theorem upgrade_config_file_error_semantics_wit :
    upgrade_config_file (fun _ => false) (fun _ => false) "vignette.yaml"
      emptyConfig = none ∧
    (∃ c', upgrade_config cfgUnknown = some c') := by
  refine ⟨?_, upgrade_config_file_error_semantics.2.2.2 cfgUnknown
    "yeast_rRNA" "YAL_CDS_w_250" rfl rfl⟩
  refine (upgrade_config_file_error_semantics.1 (fun _ => false)
    (fun _ => false) "vignette.yaml" emptyConfig).mpr ?_
  intro hc
  cases hc.1

/-- C4: every key of the defaults tables (`UPDATES` and the job
defaults without `nextflow_resume`) that is absent after the rename
pass is present with exactly its documented default after a successful
`upgrade_config`; a key already present is never overwritten by the
default-injection passes. -/
theorem upgrade_config_defaults :
    (∀ (c : Config) (k : String) (v : Value) (c' : Config),
      (k, v) ∈ UPDATES ++ jobConfigUpgrade → renamePass c k = none →
      upgrade_config c = some c' → c' k = some v) ∧
    (∀ (c : Config) (k : String) (v : Value), c k = some v →
      addAbsent (addAbsent c UPDATES) jobConfigUpgrade k = some v) := by
  constructor
  · intro c k v c' hmem hren h
    rcases List.mem_append.mp hmem with hup | hjob
    · have hni := updates_not_index (k, v) hup
      have hnu := updates_not_unused (k, v) hup
      rw [upgraded_other h hni.1 hni.2 hnu]
      exact afterDefaults_of_absent_update hren
        (lookupL_of_nodup_mem updates_keys_nodup hup)
    · have hni := job_not_index (k, v) hjob
      have hnu := job_not_unused (k, v) hjob
      rw [upgraded_other h hni.1 hni.2 hnu]
      have hupn : lookupL UPDATES k = none :=
        Option.isNone_iff_eq_none.mp (job_no_update (k, v) hjob)
      rw [afterDefaults_of_absent_job hren hupn]
      exact lookupL_of_nodup_mem job_keys_nodup hjob
  · intro c k v h
    exact addAbsent_of_present jobConfigUpgrade
      (addAbsent_of_present UPDATES h)

/-- C4 (witness): the defaults statement applied to the key
`count_reads` on the concrete vignette configuration. -/
theorem upgrade_config_defaults_wit :
    upgrade_config cfgVignette = some upgradedVignette ∧
    renamePass cfgVignette "count_reads" = none ∧
    upgradedVignette "count_reads" = some (Value.bool true) := by
  have hmem : ("count_reads", Value.bool true) ∈ UPDATES ++ jobConfigUpgrade := by
    refine List.mem_append_left _ ?_
    show ("count_reads", Value.bool true) ∈ UPDATES
    unfold UPDATES
    exact List.Mem.tail _ (List.Mem.tail _ (List.Mem.tail _ (List.Mem.head _)))
  exact ⟨rfl, rfl,
    upgrade_config_defaults.1 cfgVignette "count_reads" (Value.bool true)
      upgradedVignette hmem rfl rfl⟩

/-- C5: every key of the obsolete set `UNUSED` is absent from the
mapping after a successful `upgrade_config`, whether or not it was
present in the input. -/
theorem upgrade_config_removes_unused (c : Config) (k : String) (c' : Config)
    (hk : k ∈ UNUSED) (h : upgrade_config c = some c') : c' k = none :=
  upgraded_unused h hk

/-- C5 (witness): the removal statement applied to the obsolete key
`aligner`, present in the concrete input. -/
theorem upgrade_config_removes_unused_wit :
    cfgUnknown "aligner" = some (Value.str "hisat2") ∧
    upgrade_config cfgUnknown = some upgradedUnknown ∧
    upgradedUnknown "aligner" = none :=
  ⟨rfl, rfl,
    upgrade_config_removes_unused cfgUnknown "aligner" upgradedUnknown
      (by decide) rfl⟩

/-- C6 (amended): `upgrade_config` removes only the five obsolete keys
and performs no validation of unknown keys or value types: any key that
is not a rename source or target, not a defaults-table key, not an
index-prefix key and not obsolete keeps exactly its input value through
a successful upgrade — in particular unknown keys persist. -/
theorem upgrade_config_unknown_keys_persist (c : Config) (k : String)
    (c' : Config) (h : upgrade_config c = some c')
    (h1 : k ∉ RENAMES.map Prod.fst) (h2 : k ∉ RENAMES.map Prod.snd)
    (h3 : lookupL UPDATES k = none) (h4 : lookupL jobConfigUpgrade k = none)
    (h5 : k ≠ RRNA_INDEX_KEY) (h6 : k ≠ ORF_INDEX_KEY) (h7 : k ∉ UNUSED) :
    c' k = c k := by
  rw [upgraded_other h h5 h6 h7]
  have hren : renamePass c k = c k := renameFold_untouched RENAMES k h1 h2 c
  cases hc : c k with
  | some v =>
    exact afterDefaults_of_present (hren.trans hc)
  | none =>
    have had : afterDefaults c k = lookupL jobConfigUpgrade k :=
      afterDefaults_of_absent_job (hren.trans hc) h3
    rw [had]
    exact h4

/-- C6 (counterexample): the unknown key `zzz_unknown` persists with
its value through `upgrade_config`, refuting the claim that no unknown
key persists in the upgraded mapping. -/
theorem unknown_key_persists_cex :
    (upgrade_config cfgUnknown).map (fun cc => cc "zzz_unknown") =
      some (some (Value.int 7)) ∧
    "zzz_unknown" ∉ RENAMES.map Prod.snd ∧
    (lookupL UPDATES "zzz_unknown").isNone = true ∧
    (lookupL jobConfigUpgrade "zzz_unknown").isNone = true ∧
    "zzz_unknown" ∉ UNUSED :=
  ⟨rfl, by decide, rfl, rfl, by decide⟩

/-- C6 (witness): the persistence statement applied to the unknown key
`zzz_unknown` of the concrete configuration. -/
theorem upgrade_config_unknown_keys_persist_wit :
    upgrade_config cfgUnknown = some upgradedUnknown ∧
    upgradedUnknown "zzz_unknown" = some (Value.int 7) := by
  refine ⟨rfl, ?_⟩
  have h := upgrade_config_unknown_keys_persist cfgUnknown "zzz_unknown"
    upgradedUnknown rfl (by decide) (by decide) rfl rfl (by decide)
    (by decide) (by decide)
  rw [h]
  rfl

/-- C10: in the index-prefix path-normalization pass of
`upgrade_config`, a value ending in a path separator is replaced by the
empty string — e.g. `rrna_index_prefix: vignette/index/` becomes the
empty string, not `index` — unlike the Path Resolver of the test
suites, which normalizes the trailing separator away before taking the
final segment. -/
theorem index_trailing_sep_empty :
    (∀ s : String, pySplitTail (s.push '/') = "") ∧
    (∀ (c : Config) (c' : Config),
      c "rRNA_index" = none →
      c RRNA_INDEX_KEY = some (Value.str "vignette/index/") →
      upgrade_config c = some c' →
      c' RRNA_INDEX_KEY = some (Value.str "")) ∧
    pyBasename (pyNormpath "vignette/index/") = "index" ∧
    pySplitTail "vignette/index/" = "" := by
  refine ⟨pySplitTail_push_sep, ?_, rfl, rfl⟩
  intro c c' h1 h2 h
  have habs : ∀ p ∈ RENAMES, p.2 = RRNA_INDEX_KEY → c p.1 = none := by
    intro p hp hpk
    rw [rrna_src_unique p hp hpk]
    exact h1
  have hren : renamePass c RRNA_INDEX_KEY = c RRNA_INDEX_KEY :=
    renameFold_tgt_keep RENAMES RRNA_INDEX_KEY renames_src_not_tgt
      index_not_src.1 c habs
  have had : afterDefaults c RRNA_INDEX_KEY =
      some (Value.str "vignette/index/") :=
    afterDefaults_of_present (by rw [hren, h2])
  rcases upgraded_rrna h with ⟨s, hads, hc'⟩
  rw [had] at hads
  injection hads with hs1
  injection hs1 with hs2
  rw [← hs2] at hc'
  exact hc'

/-- C10 (witness): the trailing-separator statement applied to a
concrete configuration with `rrna_index_prefix: vignette/index/`. -/
theorem index_trailing_sep_empty_wit :
    upgrade_config cfgTrailing = some upgradedTrailing ∧
    cfgTrailing "rrna_index_prefix" = some (Value.str "vignette/index/") ∧
    upgradedTrailing "rrna_index_prefix" = some (Value.str "") :=
  ⟨rfl, rfl,
    index_trailing_sep_empty.2.1 cfgTrailing upgradedTrailing rfl rfl rfl⟩

/-- C7: the Path Resolver joins the expected-results root with the last
path segment of the actual directory path, normalizing trailing path
separators away before taking the basename: for actual path
`a/b/vignette/index/` (with and without the trailing slash) and
expected root `/x/y` the result is `/x/y/index`. -/
theorem path_resolver_trailing_sep :
    resolveExpectedDir "/x/y" "a/b/vignette/index/" = "/x/y/index" ∧
    resolveExpectedDir "/x/y" "a/b/vignette/index" = "/x/y/index" ∧
    pyNormpath "a/b/vignette/index/" = "a/b/vignette/index" :=
  ⟨rfl, rfl, rfl⟩

/-- C8 (amended): the flag-guarded checks — bedgraph, UMI extraction
and deduplication statistics in the integration suite, UMI extraction
and deduplication statistics in the regression suite — report skipped
with a descriptive reason whenever their governing flag is false; the
regression suite's bedgraph check, however, consults no flag at all. -/
theorem flag_guarded_checks_skip :
    (∀ (e d s f : String) (q : String → String → Bool),
      test_bedtools_bedgraph_integ false e d s f q =
        Outcome.skipped "Skipped test as make_bedgraph: ") ∧
    (∀ (e d s u : String) (q : String → String → Bool),
      test_umitools_extract_fq_integ false e d s u q =
        Outcome.skipped "Skipped test applicable to UMI extraction") ∧
    (∀ (b : Bool) (e d s sf : String) (ex : String → Bool),
      test_umitools_dedup_stats_integ false b e d s sf ex =
        Outcome.skipped "Skipped test as dedup_umis: ") ∧
    (∀ (e d s sf : String) (ex : String → Bool),
      test_umitools_dedup_stats_integ true false e d s sf ex =
        Outcome.skipped "Skipped test as dedup_stats: ") ∧
    (∀ (e d s u : String) (q : String → String → Bool),
      test_umitools_extract_fq_regr false e d s u q =
        Outcome.skipped "Skipped test applicable to UMI extraction") ∧
    (∀ (b : Bool) (e d s sf : String) (ex : String → Bool),
      test_umitools_dedup_stats_regr false b e d s sf ex =
        Outcome.skipped "Skipped test applicable to UMI deduplication") ∧
    (∀ (e d s sf : String) (ex : String → Bool),
      test_umitools_dedup_stats_regr true false e d s sf ex =
        Outcome.skipped
          "Skipped test applicable to UMI deduplication statistics") :=
  ⟨fun _ _ _ _ _ => rfl, fun _ _ _ _ _ => rfl, fun _ _ _ _ _ _ => rfl,
    fun _ _ _ _ _ => rfl, fun _ _ _ _ _ => rfl, fun _ _ _ _ _ _ => rfl,
    fun _ _ _ _ _ => rfl⟩

/-- C8 (counterexample): the regression suite's bedgraph check ignores
the `make_bedgraph` flag — whatever the configuration says, with the
expected file present it reports failed or passed according to the file
comparison, never a flag-based skip, refuting the claim for this
flag-governed artifact. -/
theorem regression_bedgraph_ignores_flag_cex :
    test_bedtools_bedgraph_regr "/exp" "vignette/output" "WTnone"
      "minus.bedgraph" (fun _ => true) (fun _ _ => false) = Outcome.failed ∧
    test_bedtools_bedgraph_regr "/exp" "vignette/output" "WTnone"
      "minus.bedgraph" (fun _ => true) (fun _ _ => true) = Outcome.passed :=
  ⟨rfl, rfl⟩

/-- C9: the per-sample output BAM and BAI checks of both suites, when
`dedup_umis` is true, assert only existence on the actual side — the
outcome never depends on the content comparators, a missing actual file
fails the assertion, and with all files present the check passes
without comparison; content comparison occurs only when `dedup_umis` is
false, where the comparators decide pass or fail. -/
theorem dedup_existence_only :
    (∀ (e d s : String) (ex : String → Bool)
        (q1 q2 q1' q2' : String → String → Bool),
      test_samtools_view_sort_index_integ true e d s ex q1 q2 =
        test_samtools_view_sort_index_integ true e d s ex q1' q2') ∧
    (∀ (e d s : String) (ex : String → Bool)
        (q1 q2 : String → String → Bool),
      ex (pyJoin (pyJoin (resolveExpectedDir e d) s) (bamName s)) = true →
      ex (pyJoin (pyJoin d s) (bamName s)) = false →
      test_samtools_view_sort_index_integ true e d s ex q1 q2 =
        Outcome.failed) ∧
    (∀ (e d s : String) (q1 q2 : String → String → Bool),
      test_samtools_view_sort_index_integ true e d s (fun _ => true) q1 q2 =
        Outcome.passed) ∧
    (∀ e d s : String,
      test_samtools_view_sort_index_integ false e d s (fun _ => true)
        (fun _ _ => true) (fun _ _ => true) = Outcome.passed ∧
      test_samtools_view_sort_index_integ false e d s (fun _ => true)
        (fun _ _ => false) (fun _ _ => true) = Outcome.failed) ∧
    (∀ (e d s : String) (ex : String → Bool)
        (q q' : String → String → Bool),
      test_samtools_view_sort_index_regr true e d s ex q =
        test_samtools_view_sort_index_regr true e d s ex q') := by
  refine ⟨?_, ?_, fun _ _ _ _ _ => rfl,
    fun _ _ _ => ⟨rfl, rfl⟩, ?_⟩
  · intro e d s ex q1 q2 q1' q2'
    unfold test_samtools_view_sort_index_integ
    cases h1 : ex (pyJoin (pyJoin (resolveExpectedDir e d) s) (bamName s)) <;>
      cases h2 : ex (pyJoin (pyJoin d s) (bamName s)) <;>
      cases h3 : ex (pyJoin (pyJoin d s) (baiName (bamName s))) <;>
      simp [h1, h2, h3]
  · intro e d s ex q1 q2 h1 h2
    unfold test_samtools_view_sort_index_integ
    simp [h1, h2]
  · intro e d s ex q q'
    unfold test_samtools_view_sort_index_regr
    cases h1 : ex (pyJoin (pyJoin (resolveExpectedDir e d) s) (bamName s)) <;>
      cases h2 : ex (pyJoin (pyJoin d s) (bamName s)) <;>
      cases h3 : ex (pyJoin (pyJoin d s) (baiName (bamName s))) <;>
      simp [h1, h2, h3]

/-- C9 (witness): the existence-only statement applied to a concrete
run with deduplication enabled whose actual BAM file is missing. -/
theorem dedup_existence_only_wit :
    test_samtools_view_sort_index_integ true "/exp" "vignette/output" "WT3AT"
      (fun p => decide (p ≠ "vignette/output/WT3AT/WT3AT.bam"))
      (fun _ _ => false) (fun _ _ => false) = Outcome.failed :=
  dedup_existence_only.2.1 "/exp" "vignette/output" "WT3AT"
    (fun p => decide (p ≠ "vignette/output/WT3AT/WT3AT.bam"))
    (fun _ _ => false) (fun _ _ => false) rfl rfl

end Riboviz
